import Mathlib

/-!
Verification of the codex Python SDK event-stream core
(`sdk/python/src/codex_sdk/types.py`, `thread.py`, `exec.py`).

The development shallowly embeds:
  - the JSON value model produced by `json.loads` (objects keep last-wins
    duplicate-key semantics, as Python dicts do);
  - `parse_thread_event` / `parse_thread_item` from `types.py`, including
    Python truthiness (`x or default`), `str(...)`, `int(...)`, `list(...)`
    and `dict.get` defaulting behaviour, and the exception paths
    (KeyError for `data["k"]`, AttributeError for `.get` on a non-dict,
    TypeError for `list(...)` on a non-iterable, ValueError for
    unsupported discriminants);
  - the aggregation loop of `Thread.run` from `thread.py` (items /
    final_response / usage accumulation, break on failure events, and the
    final `if turn_failure:` truthiness check);
  - the subprocess driver `CodexExec.run` from `exec.py` as a pure
    pipeline over the list of stdout lines, the exit code and stderr,
    parameterised by the point at which the cooperative cancellation
    event becomes set, with the `terminate_process` grace-period logic
    modelled as an explicit action trace.
-/

/-- JSON values as decoded by the Python function `json.loads`.  Numbers are modelled
as integers: the wire format of the event stream uses only integer token
counts, and no claim exercises floating-point payloads. -/
inductive Json where
  | null
  | bool (b : Bool)
  | num (n : Int)
  | str (s : String)
  | arr (xs : List Json)
  | obj (fields : List (String × Json))

/-- `d.get(k)` on a Python dict built from JSON object fields: duplicate
keys are last-wins, matching `json.loads` / `dict` semantics. -/
def dictGet (d : List (String × Json)) (k : String) : Option Json :=
  match d with
  | [] => none
  | (k1, v) :: rest =>
    match dictGet rest k with
    | some w => some w
    | none => if k1 = k then some v else none

/-- Python truthiness of a decoded JSON value: `None`, `False`, `0`, `""`,
`[]` and `{}` are falsy, everything else is truthy. -/
def pyTruthy : Json → Bool
  | .null => false
  | .bool b => b
  | .num n => n != 0
  | .str s => s != ""
  | .arr xs => !xs.isEmpty
  | .obj fs => !fs.isEmpty

/-- Python `repr` of a decoded JSON value, used by `str()` on non-string
values (simplified: string escaping inside containers is not reproduced;
no theorem below depends on the container rendering). -/
def pyRepr : Json → String
  | .null => "None"
  | .bool true => "True"
  | .bool false => "False"
  | .num n => toString n
  | .str s => "\x27" ++ s ++ "\x27"
  | .arr xs =>
    "[" ++ String.intercalate ", " (xs.attach.map fun ⟨x, _⟩ => pyRepr x) ++ "]"
  | .obj fs =>
    "\x7b" ++
      String.intercalate ", "
        (fs.attach.map fun ⟨(k, v), _⟩ => "\x27" ++ k ++ "\x27: " ++ pyRepr v) ++
      "\x7d"
termination_by j => sizeOf j
decreasing_by
  · have h := List.sizeOf_lt_of_mem (by assumption : x ∈ xs)
    simp only [Json.arr.sizeOf_spec]
    omega
  · have h := List.sizeOf_lt_of_mem (by assumption : (k, v) ∈ fs)
    simp only [Prod.mk.sizeOf_spec] at h
    simp only [Json.obj.sizeOf_spec]
    omega

/-- Python `str(x)` for a decoded JSON value: identity on strings,
`repr`-like rendering otherwise (`str(None) = "None"`, `str(True) =
"True"`, ...). -/
def pyStr : Json → String
  | .str s => s
  | v => pyRepr v

/-- The exception kinds a decode can raise in `types.py`. -/
inductive DecodeError where
  | json_decode
  | key_error (key : String)
  | attribute_error
  | type_error
  | value_error (message : String)

/-- Python `int(x)` on a decoded JSON value (only reached on truthy
values in `types.py`, because of the `... or 0` guards). -/
def pyToInt : Json → Except DecodeError Int
  | .num n => .ok n
  | .bool b => .ok (if b then 1 else 0)
  | .str s =>
    match s.trim.toInt? with
    | some n => .ok n
    | none => .error (.value_error "invalid literal for int()")
  | _ => .error .type_error

/-- Python iteration / `list(x)` over a decoded JSON value: lists yield
their elements, strings their characters, dicts their keys; numbers,
booleans and `None` raise TypeError. -/
def pyIterate : Json → Except DecodeError (List Json)
  | .arr xs => .ok xs
  | .str s => .ok (s.data.map fun c => .str (String.singleton c))
  | .obj fs => .ok (fs.map fun kv => .str kv.1)
  | _ => .error .type_error

/-- `Usage` dataclass from `types.py`. -/
structure Usage where
  input_tokens : Int := 0
  cached_input_tokens : Int := 0
  output_tokens : Int := 0

/-- `ThreadError` dataclass from `types.py`. -/
structure ThreadError where
  message : String

/-- `FileUpdateChange` dataclass from `types.py`. -/
structure FileUpdateChange where
  path : String
  kind : String

/-- `TodoItem` dataclass from `types.py`. -/
structure TodoItem where
  text : String
  completed : Bool

/-- `McpToolCallResult` dataclass from `types.py`.  `structured_content`
is typed `Any` in Python and stores the raw decoded value (`Json.null`
for a missing key, as `dict.get` returns `None`). -/
structure McpToolCallResult where
  content : List Json
  structured_content : Json

/-- `McpToolCallError` dataclass from `types.py`. -/
structure McpToolCallError where
  message : String

/-- The `ThreadItem` union from `types.py`: one constructor per
dataclass, fields in the dataclass order.  `exit_code` and `arguments`
store the raw decoded value (`data.get` performs no conversion; a missing
key gives Python `None`, modelled as `Json.null`). -/
inductive ThreadItem where
  | agentMessage (id type text : String)
  | reasoning (id type text : String)
  | commandExecution (id type command aggregated_output : String)
      (status : String) (exit_code : Json)
  | fileChange (id type : String) (changes : List FileUpdateChange)
      (status : String)
  | mcpToolCall (id type server tool : String) (arguments : Json)
      (status : String) (result : Option McpToolCallResult)
      (error : Option McpToolCallError)
  | webSearch (id type query : String)
  | todoList (id type : String) (items : List TodoItem)
  | errorItem (id type message : String)

/-- The `ThreadEvent` union from `types.py`: one constructor per event
dataclass.  Each carries the `type : str` field the Python dataclasses
store (always the wire discriminant). -/
inductive ThreadEvent where
  | threadStarted (type thread_id : String)
  | turnStarted (type : String)
  | turnCompleted (type : String) (usage : Usage)
  | turnFailed (type : String) (error : ThreadError)
  | itemStarted (type : String) (item : ThreadItem)
  | itemUpdated (type : String) (item : ThreadItem)
  | itemCompleted (type : String) (item : ThreadItem)
  | errorEvent (type : String) (message : String)

/-- `str(data.get(k, ""))`: the pervasive defaulted string-field read in
`types.py`. -/
def strField (d : List (String × Json)) (k : String) : String :=
  pyStr ((dictGet d k).getD (.str ""))

/-- `data.get(k) or []` (and `data.get(k, default) or default` with a
falsy default in general): a missing or falsy value is replaced by the
given default. -/
def getOrDefault (d : List (String × Json)) (k : String) (dflt : Json) : Json :=
  match dictGet d k with
  | none => dflt
  | some v => if pyTruthy v then v else dflt

/-- One usage field: `int(usage_data.get(k, 0) or 0)` from
`parse_thread_event`. -/
def usageField (ud : List (String × Json)) (k : String) : Except DecodeError Int :=
  match dictGet ud k with
  | none => .ok 0
  | some v => if pyTruthy v then pyToInt v else .ok 0

/-- The `file_change` list comprehension: each element must be a dict
(`change.get` raises AttributeError otherwise). -/
def parseChanges : List Json → Except DecodeError (List FileUpdateChange)
  | [] => .ok []
  | .obj c :: rest =>
    (parseChanges rest).map
      (fun tail => ⟨strField c "path", strField c "kind"⟩ :: tail)
  | _ :: _ => .error .attribute_error

/-- The `todo_list` list comprehension: each element must be a dict;
`completed` is read with `bool(todo.get("completed", False))`. -/
def parseTodos : List Json → Except DecodeError (List TodoItem)
  | [] => .ok []
  | .obj t :: rest =>
    (parseTodos rest).map
      (fun tail =>
        (⟨strField t "text",
          pyTruthy ((dictGet t "completed").getD (.bool false))⟩ : TodoItem)
          :: tail)
  | _ :: _ => .error .attribute_error

/-- `parse_thread_item` from `types.py`.  The argument is the raw decoded
value of `data["item"]`; a non-dict raises AttributeError at the first
`.get`.  `item_id = str(data.get("id", ""))` defaults a missing id to the
empty string.  An unrecognized `type` raises
`ValueError(f"Unsupported item type: ...")`. -/
def parse_thread_item (j : Json) : Except DecodeError ThreadItem :=
  match j with
  | .obj d =>
    let item_id := pyStr ((dictGet d "id").getD (.str ""))
    match dictGet d "type" with
    | some (.str t) =>
      if t = "agent_message" then
        .ok (.agentMessage item_id t (strField d "text"))
      else if t = "reasoning" then
        .ok (.reasoning item_id t (strField d "text"))
      else if t = "command_execution" then
        .ok (.commandExecution item_id t (strField d "command")
          (strField d "aggregated_output") (strField d "status")
          ((dictGet d "exit_code").getD .null))
      else if t = "file_change" then
        match pyIterate (getOrDefault d "changes" (.arr [])) with
        | .error e => .error e
        | .ok elems =>
          match parseChanges elems with
          | .error e => .error e
          | .ok changes =>
            .ok (.fileChange item_id t changes (strField d "status"))
      else if t = "mcp_tool_call" then
        let resultParsed : Except DecodeError (Option McpToolCallResult) :=
          match dictGet d "result" with
          | some (.obj rd) =>
            match pyIterate (getOrDefault rd "content" (.arr [])) with
            | .error e => .error e
            | .ok content =>
              .ok (some ⟨content, (dictGet rd "structured_content").getD .null⟩)
          | _ => .ok none
        match resultParsed with
        | .error e => .error e
        | .ok result =>
          let error : Option McpToolCallError :=
            match dictGet d "error" with
            | some (.obj ed) => some ⟨strField ed "message"⟩
            | _ => none
          .ok (.mcpToolCall item_id t (strField d "server") (strField d "tool")
            ((dictGet d "arguments").getD .null) (strField d "status")
            result error)
      else if t = "web_search" then
        .ok (.webSearch item_id t (strField d "query"))
      else if t = "todo_list" then
        match pyIterate (getOrDefault d "items" (.arr [])) with
        | .error e => .error e
        | .ok elems =>
          match parseTodos elems with
          | .error e => .error e
          | .ok todos => .ok (.todoList item_id t todos)
      else if t = "error" then
        .ok (.errorItem item_id t (strField d "message"))
      else
        .error (.value_error ("Unsupported item type: " ++ t))
    | some v => .error (.value_error ("Unsupported item type: " ++ pyStr v))
    | none => .error (.value_error "Unsupported item type: None")
  | _ => .error .attribute_error

/-- `parse_thread_event` from `types.py`, on an already-decoded JSON
value (the dict branch of the Python function; the string branch is
`parse_thread_event_line` below).  A non-dict raises at `data.get`;
`thread.started` requires `data["thread_id"]` (KeyError), the three item
events require `data["item"]`; `turn.completed` / `turn.failed` /
`error` default their sub-payloads; an unrecognized `type` raises
`ValueError(f"Unsupported event type: ...")`. -/
def parse_thread_event (j : Json) : Except DecodeError ThreadEvent :=
  match j with
  | .obj d =>
    match dictGet d "type" with
    | some (.str t) =>
      if t = "thread.started" then
        match dictGet d "thread_id" with
        | none => .error (.key_error "thread_id")
        | some v => .ok (.threadStarted t (pyStr v))
      else if t = "turn.started" then
        .ok (.turnStarted t)
      else if t = "turn.completed" then
        match getOrDefault d "usage" (.obj []) with
        | .obj ud =>
          match usageField ud "input_tokens" with
          | .error e => .error e
          | .ok it =>
            match usageField ud "cached_input_tokens" with
            | .error e => .error e
            | .ok ct =>
              match usageField ud "output_tokens" with
              | .error e => .error e
              | .ok ot => .ok (.turnCompleted t ⟨it, ct, ot⟩)
        | _ => .error .attribute_error
      else if t = "turn.failed" then
        match getOrDefault d "error" (.obj []) with
        | .obj ed =>
          .ok (.turnFailed t ⟨pyStr ((dictGet ed "message").getD (.str ""))⟩)
        | _ => .error .attribute_error
      else if t = "item.started" then
        match dictGet d "item" with
        | none => .error (.key_error "item")
        | some v =>
          match parse_thread_item v with
          | .error e => .error e
          | .ok item => .ok (.itemStarted t item)
      else if t = "item.updated" then
        match dictGet d "item" with
        | none => .error (.key_error "item")
        | some v =>
          match parse_thread_item v with
          | .error e => .error e
          | .ok item => .ok (.itemUpdated t item)
      else if t = "item.completed" then
        match dictGet d "item" with
        | none => .error (.key_error "item")
        | some v =>
          match parse_thread_item v with
          | .error e => .error e
          | .ok item => .ok (.itemCompleted t item)
      else if t = "error" then
        .ok (.errorEvent t (pyStr ((dictGet d "message").getD (.str ""))))
      else
        .error (.value_error ("Unsupported event type: " ++ t))
    | some v => .error (.value_error ("Unsupported event type: " ++ pyStr v))
    | none => .error (.value_error "Unsupported event type: None")
  | _ => .error .attribute_error

/-! ## The JSON line decoder (`json.loads` on one stream line)

`Thread._run_streamed_internal` calls `parse_thread_event(line)` on every
line yielded by `CodexExec.run`; the string branch of
`parse_thread_event` runs `json.loads`.  The grammar model below covers
the fragment the event stream uses (objects, arrays, strings with the
common escapes, integers, literals); a failed parse is
`json.JSONDecodeError`.  It is exact on the point the claims exercise:
no JSON value can be parsed from an empty or whitespace-only string. -/

/-- The whitespace characters `json.loads` skips between tokens. -/
def isJsonWs (c : Char) : Bool :=
  c = ' ' || c = '\t' || c = '\n' || c = '\r'

/-- Drop leading JSON whitespace. -/
def skipWs : List Char → List Char
  | [] => []
  | c :: cs => if isJsonWs c then skipWs cs else c :: cs

/-- One string-escape character (`\u` sequences are outside the modelled
fragment). -/
def escChar (c : Char) : Option Char :=
  if c = 'n' then some '\n'
  else if c = 't' then some '\t'
  else if c = 'r' then some '\r'
  else if c = 'b' then some '\x08'
  else if c = 'f' then some '\x0c'
  else if c = '"' || c = '\\' || c = '/' then some c
  else none

/-- Body of a JSON string, after the opening quote; returns the decoded
characters and the rest of the input. -/
def parseStringChars : List Char → Option (List Char × List Char)
  | [] => none
  | '"' :: rest => some ([], rest)
  | '\\' :: c :: rest =>
    match escChar c with
    | none => none
    | some e =>
      match parseStringChars rest with
      | none => none
      | some (cs, rest2) => some (e :: cs, rest2)
  | '\\' :: [] => none
  | c :: rest =>
    match parseStringChars rest with
    | none => none
    | some (cs, rest2) => some (c :: cs, rest2)

/-- Digits to a natural number. -/
def digitsToNat (ds : List Char) : Nat :=
  ds.foldl (fun acc c => acc * 10 + (c.toNat - '0'.toNat)) 0

/-- A JSON integer (floats are outside the modelled fragment; leading
zeros are rejected as in the JSON grammar). -/
def parseIntToken (cs : List Char) : Option (Int × List Char) :=
  let (sign, cs2) : Int × List Char :=
    match cs with
    | '-' :: rest => (-1, rest)
    | _ => (1, cs)
  let ds := cs2.takeWhile Char.isDigit
  let rest := cs2.dropWhile Char.isDigit
  if ds.isEmpty then none
  else if ds.length > 1 && ds.headD '0' = '0' then none
  else
    match rest with
    | '.' :: _ => none
    | 'e' :: _ => none
    | 'E' :: _ => none
    | _ => some (sign * (digitsToNat ds : Int), rest)

mutual

/-- One JSON value, with fuel bounding recursion depth. -/
def parseJsonValue : Nat → List Char → Option (Json × List Char)
  | 0, _ => none
  | Nat.succ fuel, cs =>
    match skipWs cs with
    | [] => none
    | 'n' :: 'u' :: 'l' :: 'l' :: rest => some (.null, rest)
    | 't' :: 'r' :: 'u' :: 'e' :: rest => some (.bool true, rest)
    | 'f' :: 'a' :: 'l' :: 's' :: 'e' :: rest => some (.bool false, rest)
    | '"' :: rest =>
      match parseStringChars rest with
      | none => none
      | some (cs2, rest2) => some (.str (String.mk cs2), rest2)
    | '[' :: rest =>
      match skipWs rest with
      | ']' :: rest2 => some (.arr [], rest2)
      | rest2 => parseJsonElems fuel rest2 []
    | '\x7b' :: rest =>
      match skipWs rest with
      | '\x7d' :: rest2 => some (.obj [], rest2)
      | rest2 => parseJsonMembers fuel rest2 []
    | other =>
      match parseIntToken other with
      | none => none
      | some (n, rest) => some (.num n, rest)

/-- Elements of a non-empty JSON array, accumulating in order. -/
def parseJsonElems : Nat → List Char → List Json → Option (Json × List Char)
  | 0, _, _ => none
  | Nat.succ fuel, cs, acc =>
    match parseJsonValue fuel cs with
    | none => none
    | some (v, rest) =>
      match skipWs rest with
      | ',' :: rest2 => parseJsonElems fuel rest2 (acc ++ [v])
      | ']' :: rest2 => some (.arr (acc ++ [v]), rest2)
      | _ => none

/-- Members of a non-empty JSON object, accumulating in order. -/
def parseJsonMembers : Nat → List Char → List (String × Json) →
    Option (Json × List Char)
  | 0, _, _ => none
  | Nat.succ fuel, cs, acc =>
    match skipWs cs with
    | '"' :: rest =>
      match parseStringChars rest with
      | none => none
      | some (kcs, rest2) =>
        match skipWs rest2 with
        | ':' :: rest3 =>
          match parseJsonValue fuel rest3 with
          | none => none
          | some (v, rest4) =>
            match skipWs rest4 with
            | ',' :: rest5 =>
              parseJsonMembers fuel rest5 (acc ++ [(String.mk kcs, v)])
            | '\x7d' :: rest5 => some (.obj (acc ++ [(String.mk kcs, v)]), rest5)
            | _ => none
        | _ => none
    | _ => none

end

/-- `json.loads` on one line: parse one value, require only whitespace
after it. -/
def json_loads (s : String) : Option Json :=
  match parseJsonValue (s.length + 8) s.data with
  | none => none
  | some (v, rest) => if skipWs rest = [] then some v else none

/-- `parse_thread_event` applied to a raw line, as
`Thread._run_streamed_internal` does: `json.loads` then the dict branch. -/
def parse_thread_event_line (line : String) : Except DecodeError ThreadEvent :=
  match json_loads line with
  | none => .error .json_decode
  | some j => parse_thread_event j

/-- The event stream `Thread._run_streamed_internal` yields for a list of
subprocess output lines: every line (empty ones included) is decoded, and
the first decode failure aborts the stream. -/
def run_streamed_events : List String → Except DecodeError (List ThreadEvent)
  | [] => .ok []
  | l :: ls =>
    match parse_thread_event_line l with
    | .error e => .error e
    | .ok ev =>
      match run_streamed_events ls with
      | .error e => .error e
      | .ok evs => .ok (ev :: evs)

/-! ## The `Thread.run` aggregation loop (`thread.py`) -/

/-- `TurnResult` dataclass from `thread.py`. -/
structure TurnResult where
  items : List ThreadItem
  final_response : String
  usage : Option Usage

/-- The errors `Thread.run` can surface: `ThreadRunError` for failure
events, the decode exceptions, `CancelledError`, and the RuntimeError
raised on a non-zero exit status. -/
inductive RunError where
  | cancelled
  | decode (e : DecodeError)
  | threadRun (message : String)
  | processFailure (message : String)

/-- The local accumulator state of `Thread.run`. -/
structure RunState where
  items : List ThreadItem
  final_response : String
  usage : Option Usage
  turn_failure : Option String

/-- Initial accumulator state of `Thread.run`. -/
def initState : RunState := ⟨[], "", none, none⟩

/-- One iteration of the `for event in generator` loop of `Thread.run`:
the updated state and whether the loop `break`s (it breaks exactly on
`TurnFailedEvent` and `ThreadErrorEvent`). -/
def stepEvent (ev : ThreadEvent) (st : RunState) : RunState × Bool :=
  match ev with
  | .itemCompleted _ item =>
    let fr := match item with
      | .agentMessage _ _ text => text
      | _ => st.final_response
    ({ st with final_response := fr, items := st.items ++ [item] }, false)
  | .turnCompleted _ u => ({ st with usage := some u }, false)
  | .turnFailed _ err => ({ st with turn_failure := some err.message }, true)
  | .errorEvent _ msg => ({ st with turn_failure := some msg }, true)
  | _ => (st, false)

/-- The whole loop: consume events in order until the list ends or an
iteration breaks; also return the events left unconsumed. -/
def processEvents : List ThreadEvent → RunState → RunState × List ThreadEvent
  | [], st => (st, [])
  | e :: rest, st =>
    if (stepEvent e st).2 then ((stepEvent e st).1, rest)
    else processEvents rest (stepEvent e st).1

/-- The epilogue of `Thread.run`: `if turn_failure: raise
ThreadRunError(turn_failure)` — note Python truthiness, so an empty
captured message does NOT raise — else return the `TurnResult`. -/
def finishRun (st : RunState) : Except RunError TurnResult :=
  match st.turn_failure with
  | some msg =>
    if msg = "" then .ok ⟨st.items, st.final_response, st.usage⟩
    else .error (.threadRun msg)
  | none => .ok ⟨st.items, st.final_response, st.usage⟩

/-- `Thread.run` on an already-decoded event sequence. -/
def Thread.run (events : List ThreadEvent) : Except RunError TurnResult :=
  finishRun (processEvents events initState).1

/-! ## Observation helpers over event sequences -/

/-- The events on which the `Thread.run` loop breaks and records a
failure message (`TurnFailedEvent`, `ThreadErrorEvent`). -/
def isFailureEvent : ThreadEvent → Bool
  | .turnFailed _ _ => true
  | .errorEvent _ _ => true
  | _ => false

/-- Items carried by `item.completed` events, in arrival order. -/
def completedItems (es : List ThreadEvent) : List ThreadItem :=
  es.filterMap fun e =>
    match e with
    | .itemCompleted _ it => some it
    | _ => none

/-- Texts of `agent_message` items carried by `item.completed` events,
in arrival order. -/
def agentTexts (es : List ThreadEvent) : List String :=
  es.filterMap fun e =>
    match e with
    | .itemCompleted _ (.agentMessage _ _ t) => some t
    | _ => none

/-- Usage payloads of `turn.completed` events, in arrival order. -/
def usageUpdates (es : List ThreadEvent) : List Usage :=
  es.filterMap fun e =>
    match e with
    | .turnCompleted _ u => some u
    | _ => none

/-- Whether an `Except` is in the error case. -/
def isErr {ε α : Type} : Except ε α → Bool
  | .error _ => true
  | .ok _ => false

/-- The eight event discriminants of the wire protocol. -/
def eventTypeStrings : List String :=
  ["thread.started", "turn.started", "turn.completed", "turn.failed",
   "item.started", "item.updated", "item.completed", "error"]

/-- The eight item discriminants of the wire protocol. -/
def itemTypeStrings : List String :=
  ["agent_message", "reasoning", "command_execution", "file_change",
   "mcp_tool_call", "web_search", "todo_list", "error"]


/-! ## The subprocess pipeline (`CodexExec.run` in `exec.py` driven by
`Thread.run` in `thread.py`)

`CodexExec.run` checks the cancellation event at four kinds of points:
before spawning, after writing stdin and before the read loop, before
yielding each line, and after the process exits.  A `threading.Event` is
monotone — once set it stays set — so a cancellation scenario is
identified by the first checkpoint at which `is_set()` is true. -/

/-- The first checkpoint at which the cancellation event is observed set
(`never` when it is never set). -/
inductive CancelTime where
  | beforeStart
  | beforeFirstEvent
  | beforeEvent (i : Nat)
  | afterExit
  | never

/-- Whether the (monotone) cancellation event reads as set at the
checkpoint of the given rank, in a run that yields `n` lines: the
pre-spawn check has rank `0`, the pre-read check rank `1`, the check
before yielding line `i` rank `2 + i`, the after-exit check rank
`2 + n`.  A `beforeEvent i` with `i ≥ n` is first observed at the
after-exit check; `never` reads as unset at every checkpoint. -/
def cancelActive (c : CancelTime) (n checkRank : Nat) : Bool :=
  match c with
  | .beforeStart => true
  | .beforeFirstEvent => 1 ≤ checkRank
  | .beforeEvent i => 2 + min i n ≤ checkRank
  | .afterExit => 2 + n ≤ checkRank
  | .never => false

/-- Signals `terminate_process` sends. -/
inductive ProcAction where
  | terminate
  | kill

instance : DecidableEq ProcAction := fun a b => by
  cases a <;> cases b <;> first
    | exact isTrue rfl
    | exact isFalse (by intro h; cases h)

/-- `terminate_process` from `exec.py`: nothing if the process already
exited; otherwise `terminate()`, then `kill()` if it is still alive when
the two-second grace period elapses. -/
def terminate_process (alive diesWithinGrace : Bool) : List ProcAction :=
  if alive then
    if diesWithinGrace then [.terminate] else [.terminate, .kill]
  else []

/-- What the external collaborator did: the stdout lines (after the
`rstrip("\r\n")` in `CodexExec.run`), the exit status, and the captured
stderr text. -/
structure ProcResult where
  lines : List String
  returncode : Int
  stderr : String

/-- The message of the RuntimeError raised on a non-zero exit status:
`f"Codex Exec exited with code {process.returncode}: {stderr_output}"`. -/
def processFailureMessage (p : ProcResult) : String :=
  "Codex Exec exited with code " ++ toString p.returncode ++ ": " ++ p.stderr

/-- Everything observable about one `Thread.run` invocation over the
subprocess: the returned result or raised error, whether a process was
spawned, and the signals sent to it. -/
structure RunOutcome where
  result : Except RunError TurnResult
  spawned : Bool
  actions : List ProcAction

/-- The read loop: before yielding line `i` the cancellation event is
checked (`CancelledError` is caught by the `except CancelledError`
handler, which terminates the process and re-raises); then the line is
decoded (a decode failure propagates out of `Thread.run`, closing the
generator, whose cleanup terminates a still-live process); then the
`Thread.run` loop body runs, `break`ing on failure events (which also
closes the generator before the exit-status check can run).  After the
lines are exhausted: `process.wait()`, the after-exit cancellation check
(the process has already exited, so `terminate_process` sends nothing),
then the non-zero-exit-status check, then the `Thread.run` epilogue. -/
def runPipelineAux (p : ProcResult) (cancel : CancelTime)
    (alive diesWithinGrace : Bool) :
    Nat → List String → RunState → Except RunError TurnResult × List ProcAction
  | i, l :: rest, st =>
    if cancelActive cancel p.lines.length (2 + i) then
      (.error .cancelled, terminate_process alive diesWithinGrace)
    else
      match parse_thread_event_line l with
      | .error e => (.error (.decode e), terminate_process alive diesWithinGrace)
      | .ok ev =>
        if (stepEvent ev st).2 then
          (finishRun (stepEvent ev st).1, terminate_process alive diesWithinGrace)
        else runPipelineAux p cancel alive diesWithinGrace (i + 1) rest (stepEvent ev st).1
  | _, [], st =>
    if cancelActive cancel p.lines.length (2 + p.lines.length) then
      (.error .cancelled, [])
    else if p.returncode ≠ 0 then
      (.error (.processFailure (processFailureMessage p)), [])
    else (finishRun st, [])

/-- One full `Thread.run` invocation over a subprocess: the pre-spawn
cancellation check (no process exists yet, nothing to terminate), the
post-spawn / pre-read check, then the read loop. -/
def runPipeline (cancel : CancelTime) (p : ProcResult)
    (alive diesWithinGrace : Bool) : RunOutcome :=
  if cancelActive cancel p.lines.length 0 then
    ⟨.error .cancelled, false, []⟩
  else if cancelActive cancel p.lines.length 1 then
    ⟨.error .cancelled, true, terminate_process alive diesWithinGrace⟩
  else
    let (res, acts) := runPipelineAux p cancel alive diesWithinGrace 0 p.lines initState
    ⟨res, true, acts⟩

/-- Substring containment, stated over the character lists. -/
def strContains (s sub : String) : Prop :=
  ∃ a b, s.data = a ++ sub.data ++ b

/-! ## Helper lemmas -/

theorem lastD_cons {α : Type} : ∀ (l : List α) (a d : α),
    (a :: l).getLast?.getD d = l.getLast?.getD a := by
  intro l
  induction l with
  | nil => intro a d; rfl
  | cons b l ih =>
    intro a d
    rw [List.getLast?_cons_cons, ih b d, ih b a]

theorem foldl_last {α : Type} : ∀ (l : List α) (d : α),
    l.foldl (fun _ t => t) d = l.getLast?.getD d := by
  intro l
  induction l with
  | nil => intro d; rfl
  | cons a l ih => intro d; rw [List.foldl_cons, ih a, lastD_cons]

theorem foldl_lastOpt {α : Type} : ∀ (l : List α) (d : α),
    l.foldl (fun _ u => some u) (some d) = some (l.getLast?.getD d) := by
  intro l
  induction l with
  | nil => intro d; rfl
  | cons a l ih => intro d; rw [List.foldl_cons, ih a, lastD_cons]

theorem lastD_append_cons {α : Type} : ∀ (l1 : List α) (a : α) (l2 : List α) (d : α),
    (l1 ++ a :: l2).getLast?.getD d = l2.getLast?.getD a := by
  intro l1
  induction l1 with
  | nil => intro a l2 d; exact lastD_cons l2 a d
  | cons b l ih =>
    intro a l2 d
    rw [List.cons_append, lastD_cons, ih]

theorem stepEvent_snd (e : ThreadEvent) (st : RunState) :
    (stepEvent e st).2 = isFailureEvent e := by
  cases e <;> rfl

theorem processEvents_no_failure :
    ∀ (es : List ThreadEvent) (st : RunState),
    (∀ e ∈ es, isFailureEvent e = false) →
    processEvents es st =
      ({ items := st.items ++ completedItems es,
         final_response := (agentTexts es).foldl (fun _ t => t) st.final_response,
         usage := (usageUpdates es).foldl (fun _ u => some u) st.usage,
         turn_failure := st.turn_failure }, []) := by
  intro es
  induction es with
  | nil =>
    intro st _
    simp [processEvents, completedItems, agentTexts, usageUpdates]
  | cons e rest ih =>
    intro st h
    have he : isFailureEvent e = false := h e (List.mem_cons_self e rest)
    have hrest : ∀ x ∈ rest, isFailureEvent x = false :=
      fun x hx => h x (List.mem_cons_of_mem e hx)
    cases e with
    | itemCompleted ty item =>
      cases item with
      | agentMessage iid ity text =>
        simp only [processEvents, stepEvent]
        rw [ih _ hrest]
        simp [completedItems, agentTexts, usageUpdates, List.filterMap_cons]
      | reasoning iid ity text =>
        simp only [processEvents, stepEvent]
        rw [ih _ hrest]
        simp [completedItems, agentTexts, usageUpdates, List.filterMap_cons]
      | commandExecution a b c d f g =>
        simp only [processEvents, stepEvent]
        rw [ih _ hrest]
        simp [completedItems, agentTexts, usageUpdates, List.filterMap_cons]
      | fileChange a b c d =>
        simp only [processEvents, stepEvent]
        rw [ih _ hrest]
        simp [completedItems, agentTexts, usageUpdates, List.filterMap_cons]
      | mcpToolCall a b c d f g hh k =>
        simp only [processEvents, stepEvent]
        rw [ih _ hrest]
        simp [completedItems, agentTexts, usageUpdates, List.filterMap_cons]
      | webSearch a b c =>
        simp only [processEvents, stepEvent]
        rw [ih _ hrest]
        simp [completedItems, agentTexts, usageUpdates, List.filterMap_cons]
      | todoList a b c =>
        simp only [processEvents, stepEvent]
        rw [ih _ hrest]
        simp [completedItems, agentTexts, usageUpdates, List.filterMap_cons]
      | errorItem a b c =>
        simp only [processEvents, stepEvent]
        rw [ih _ hrest]
        simp [completedItems, agentTexts, usageUpdates, List.filterMap_cons]
    | turnCompleted ty u =>
      simp only [processEvents, stepEvent]
      rw [ih _ hrest]
      simp [completedItems, agentTexts, usageUpdates, List.filterMap_cons]
    | turnFailed ty err => simp [isFailureEvent] at he
    | errorEvent ty msg => simp [isFailureEvent] at he
    | threadStarted ty tid =>
      simp only [processEvents, stepEvent]
      rw [ih _ hrest]
      simp [completedItems, agentTexts, usageUpdates, List.filterMap_cons]
    | turnStarted ty =>
      simp only [processEvents, stepEvent]
      rw [ih _ hrest]
      simp [completedItems, agentTexts, usageUpdates, List.filterMap_cons]
    | itemStarted ty item =>
      simp only [processEvents, stepEvent]
      rw [ih _ hrest]
      simp [completedItems, agentTexts, usageUpdates, List.filterMap_cons]
    | itemUpdated ty item =>
      simp only [processEvents, stepEvent]
      rw [ih _ hrest]
      simp [completedItems, agentTexts, usageUpdates, List.filterMap_cons]

theorem processEvents_append_no_failure :
    ∀ (es1 es2 : List ThreadEvent) (st : RunState),
    (∀ e ∈ es1, isFailureEvent e = false) →
    processEvents (es1 ++ es2) st = processEvents es2 (processEvents es1 st).1 := by
  intro es1
  induction es1 with
  | nil => intro es2 st _; rfl
  | cons e rest ih =>
    intro es2 st h
    have he : isFailureEvent e = false := h e (List.mem_cons_self e rest)
    have hrest : ∀ x ∈ rest, isFailureEvent x = false :=
      fun x hx => h x (List.mem_cons_of_mem e hx)
    simp only [List.cons_append, processEvents, stepEvent_snd, he,
      Bool.false_eq_true, if_false]
    exact ih _ _ hrest

theorem thread_run_no_failure (es : List ThreadEvent)
    (h : ∀ e ∈ es, isFailureEvent e = false) :
    Thread.run es = .ok ⟨completedItems es,
      (agentTexts es).getLast?.getD "",
      (usageUpdates es).foldl (fun _ u => some u) none⟩ := by
  unfold Thread.run
  rw [processEvents_no_failure es initState h]
  simp [finishRun, initState, foldl_last]

/-- C1 (counterexample): a `turn.failed` event whose carried message is the
empty string does NOT make `Thread.run` raise — because of the Python
truthiness check `if turn_failure:` — and a `TurnResult` IS returned. -/
theorem C1_counterexample :
    Thread.run [ThreadEvent.turnFailed "turn.failed" ⟨""⟩] =
      .ok ⟨[], "", none⟩ := rfl

/-- C1 (amended): for an event sequence whose first `turn.failed` /
`error` event is a `turn.failed` carrying message `msg`, `Thread.run`
consumes no event after it; if `msg` is non-empty it raises
`ThreadRunError(msg)` and returns no `TurnResult`; if `msg` is empty it
returns the `TurnResult` accumulated before the failure event. -/
theorem C1_turn_failed_stops_and_raises
    (es1 es2 : List ThreadEvent) (ty msg : String)
    (h1 : ∀ e ∈ es1, isFailureEvent e = false) :
    (processEvents (es1 ++ .turnFailed ty ⟨msg⟩ :: es2) initState).2 = es2 ∧
    (msg ≠ "" → Thread.run (es1 ++ .turnFailed ty ⟨msg⟩ :: es2) =
        .error (.threadRun msg)) ∧
    (msg = "" → Thread.run (es1 ++ .turnFailed ty ⟨msg⟩ :: es2) =
        .ok ⟨completedItems es1, (agentTexts es1).getLast?.getD "",
             (usageUpdates es1).foldl (fun _ u => some u) none⟩) := by
  have happ := processEvents_append_no_failure es1
    (ThreadEvent.turnFailed ty ⟨msg⟩ :: es2) initState h1
  have hmaster := processEvents_no_failure es1 initState h1
  have hrun : processEvents (es1 ++ .turnFailed ty ⟨msg⟩ :: es2) initState =
      ({ items := completedItems es1,
         final_response := (agentTexts es1).foldl (fun _ t => t) "",
         usage := (usageUpdates es1).foldl (fun _ u => some u) none,
         turn_failure := some msg }, es2) := by
    rw [happ, hmaster]
    simp [processEvents, stepEvent, initState]
  refine ⟨by rw [hrun], ?_, ?_⟩
  · intro hne
    unfold Thread.run
    rw [hrun]
    simp [finishRun, hne]
  · intro he
    unfold Thread.run
    rw [hrun]
    simp [finishRun, he, foldl_last]

theorem C1_witness :
    (processEvents
      ([ThreadEvent.itemCompleted "item.completed"
          (.agentMessage "m1" "agent_message" "first")] ++
        .turnFailed "turn.failed" ⟨"boom"⟩ ::
        [ThreadEvent.itemCompleted "item.completed"
          (.agentMessage "m2" "agent_message" "late")]) initState).2 =
      [ThreadEvent.itemCompleted "item.completed"
        (.agentMessage "m2" "agent_message" "late")] ∧
    ("boom" ≠ "" → Thread.run
      ([ThreadEvent.itemCompleted "item.completed"
          (.agentMessage "m1" "agent_message" "first")] ++
        .turnFailed "turn.failed" ⟨"boom"⟩ ::
        [ThreadEvent.itemCompleted "item.completed"
          (.agentMessage "m2" "agent_message" "late")]) =
        .error (.threadRun "boom")) ∧
    ("boom" = "" → Thread.run
      ([ThreadEvent.itemCompleted "item.completed"
          (.agentMessage "m1" "agent_message" "first")] ++
        .turnFailed "turn.failed" ⟨"boom"⟩ ::
        [ThreadEvent.itemCompleted "item.completed"
          (.agentMessage "m2" "agent_message" "late")]) =
        .ok ⟨completedItems [ThreadEvent.itemCompleted "item.completed"
              (.agentMessage "m1" "agent_message" "first")],
             (agentTexts [ThreadEvent.itemCompleted "item.completed"
              (.agentMessage "m1" "agent_message" "first")]).getLast?.getD "",
             (usageUpdates [ThreadEvent.itemCompleted "item.completed"
              (.agentMessage "m1" "agent_message" "first")]).foldl
                (fun _ u => some u) none⟩) :=
  C1_turn_failed_stops_and_raises _ _ "turn.failed" "boom" (by decide)

theorem skipWs_of_all_ws : ∀ cs : List Char,
    (∀ c ∈ cs, isJsonWs c = true) → skipWs cs = [] := by
  intro cs
  induction cs with
  | nil => intro _; rfl
  | cons c rest ih =>
    intro h
    have hc := h c (List.mem_cons_self c rest)
    simp only [skipWs, hc, if_true]
    exact ih fun x hx => h x (List.mem_cons_of_mem c hx)

theorem parseJsonValue_ws (fuel : Nat) (cs : List Char)
    (h : ∀ c ∈ cs, isJsonWs c = true) : parseJsonValue fuel cs = none := by
  cases fuel with
  | zero => rfl
  | succ fuel =>
    unfold parseJsonValue
    rw [skipWs_of_all_ws cs h]

theorem json_loads_ws (s : String) (h : ∀ c ∈ s.data, isJsonWs c = true) :
    json_loads s = none := by
  unfold json_loads
  rw [parseJsonValue_ws _ _ h]

/-- C2 (counterexample): the stream reader does not skip empty lines —
decoding the single empty line raises `json.JSONDecodeError`, so an error
IS raised and no event list is produced. -/
theorem C2_counterexample :
    run_streamed_events [""] = .error DecodeError.json_decode ∧
    ∀ evs : List ThreadEvent, run_streamed_events [""] ≠ .ok evs := by
  refine ⟨rfl, ?_⟩
  intro evs h
  rw [show run_streamed_events [""] = .error DecodeError.json_decode from rfl] at h
  exact Except.noConfusion h

/-- C2 (amended): every line of subprocess output is decoded, empty or
whitespace-only lines included; such a line makes `parse_thread_event`
raise a JSON decode error, which aborts the event stream. -/
theorem C2_whitespace_line_raises
    (line : String) (rest : List String)
    (h : ∀ c ∈ line.data, isJsonWs c = true) :
    parse_thread_event_line line = .error .json_decode ∧
    run_streamed_events (line :: rest) = .error .json_decode := by
  have hl : parse_thread_event_line line = .error .json_decode := by
    unfold parse_thread_event_line
    rw [json_loads_ws line h]
  exact ⟨hl, by simp [run_streamed_events, hl]⟩

theorem C2_witness :
    parse_thread_event_line "  " = .error .json_decode ∧
    run_streamed_events ["  ", "not reached"] = .error .json_decode :=
  C2_whitespace_line_raises "  " ["not reached"] (by decide)

/-- C3: for an event sequence with no failure event, `final_response` of
the returned `TurnResult` is the text of the last `item.completed` event
carrying an `agent_message`, and the empty string when there is none. -/
theorem C3_final_response_is_last_agent_text
    (es : List ThreadEvent) (h : ∀ e ∈ es, isFailureEvent e = false) :
    ∃ r : TurnResult, Thread.run es = .ok r ∧
      r.final_response = (agentTexts es).getLast?.getD "" ∧
      (agentTexts es = [] → r.final_response = "") := by
  refine ⟨_, thread_run_no_failure es h, rfl, ?_⟩
  intro he
  simp [he]

theorem C3_witness : ∃ r : TurnResult,
    Thread.run
      [ThreadEvent.itemCompleted "item.completed"
        (.agentMessage "m1" "agent_message" "A"),
       ThreadEvent.itemCompleted "item.completed"
        (.agentMessage "m2" "agent_message" "B")] = .ok r ∧
      r.final_response = "B" := by
  obtain ⟨r, hr, hfr, _⟩ := C3_final_response_is_last_agent_text
    [ThreadEvent.itemCompleted "item.completed"
      (.agentMessage "m1" "agent_message" "A"),
     ThreadEvent.itemCompleted "item.completed"
      (.agentMessage "m2" "agent_message" "B")] (by decide)
  exact ⟨r, hr, by rw [hfr]; rfl⟩

/-- C4: for an event sequence with no failure event, the `items` of the
returned `TurnResult` are exactly the items carried by `item.completed`
events, in arrival order; `item.started` / `item.updated` payloads are
never added. -/
theorem C4_items_are_exactly_completed_items
    (es : List ThreadEvent) (h : ∀ e ∈ es, isFailureEvent e = false) :
    ∃ r : TurnResult, Thread.run es = .ok r ∧ r.items = completedItems es :=
  ⟨_, thread_run_no_failure es h, rfl⟩

theorem C4_witness : ∃ r : TurnResult,
    Thread.run
      [ThreadEvent.itemStarted "item.started"
        (.agentMessage "m1" "agent_message" "draft"),
       ThreadEvent.itemUpdated "item.updated"
        (.agentMessage "m1" "agent_message" "draft2"),
       ThreadEvent.itemCompleted "item.completed"
        (.agentMessage "m1" "agent_message" "done"),
       ThreadEvent.itemCompleted "item.completed"
        (.webSearch "w1" "web_search" "q")] = .ok r ∧
      r.items = [ThreadItem.agentMessage "m1" "agent_message" "done",
                 ThreadItem.webSearch "w1" "web_search" "q"] := by
  obtain ⟨r, hr, hit⟩ := C4_items_are_exactly_completed_items
    [ThreadEvent.itemStarted "item.started"
      (.agentMessage "m1" "agent_message" "draft"),
     ThreadEvent.itemUpdated "item.updated"
      (.agentMessage "m1" "agent_message" "draft2"),
     ThreadEvent.itemCompleted "item.completed"
      (.agentMessage "m1" "agent_message" "done"),
     ThreadEvent.itemCompleted "item.completed"
      (.webSearch "w1" "web_search" "q")] (by decide)
  exact ⟨r, hr, by rw [hit]; rfl⟩

/-- C6: `turn.completed` records usage but does not terminate
consumption: the whole stream is drained (nothing left unconsumed) and
`item.completed` events after the `turn.completed` still contribute to
the result; the recorded usage is that of the last `turn.completed`. -/
theorem C6_turn_completed_does_not_terminate
    (es1 es2 : List ThreadEvent) (ty : String) (u : Usage)
    (h1 : ∀ e ∈ es1, isFailureEvent e = false)
    (h2 : ∀ e ∈ es2, isFailureEvent e = false) :
    (processEvents (es1 ++ .turnCompleted ty u :: es2) initState).2 = [] ∧
    ∃ r : TurnResult, Thread.run (es1 ++ .turnCompleted ty u :: es2) = .ok r ∧
      r.items = completedItems es1 ++ completedItems es2 ∧
      r.usage = some ((usageUpdates es2).getLast?.getD u) := by
  have hall : ∀ e ∈ es1 ++ ThreadEvent.turnCompleted ty u :: es2,
      isFailureEvent e = false := by
    intro e he
    rcases List.mem_append.1 he with he1 | he2
    · exact h1 e he1
    · rcases List.mem_cons.1 he2 with rfl | he3
      · rfl
      · exact h2 e he3
  constructor
  · rw [processEvents_no_failure _ initState hall]
  · refine ⟨_, thread_run_no_failure _ hall, ?_, ?_⟩
    · simp [completedItems, List.filterMap_append, List.filterMap_cons]
    · show (usageUpdates (es1 ++ ThreadEvent.turnCompleted ty u :: es2)).foldl
        (fun _ u => some u) none = some ((usageUpdates es2).getLast?.getD u)
      have hus : usageUpdates (es1 ++ ThreadEvent.turnCompleted ty u :: es2) =
          usageUpdates es1 ++ u :: usageUpdates es2 := by
        simp [usageUpdates, List.filterMap_append, List.filterMap_cons]
      rw [hus, List.foldl_append, List.foldl_cons]
      exact foldl_lastOpt (usageUpdates es2) u

theorem C6_witness :
    (processEvents
      ([ThreadEvent.itemCompleted "item.completed"
          (.agentMessage "m1" "agent_message" "early")] ++
        .turnCompleted "turn.completed" ⟨10, 2, 3⟩ ::
        [ThreadEvent.itemCompleted "item.completed"
          (.agentMessage "m2" "agent_message" "late")]) initState).2 = [] ∧
    ∃ r : TurnResult, Thread.run
      ([ThreadEvent.itemCompleted "item.completed"
          (.agentMessage "m1" "agent_message" "early")] ++
        .turnCompleted "turn.completed" ⟨10, 2, 3⟩ ::
        [ThreadEvent.itemCompleted "item.completed"
          (.agentMessage "m2" "agent_message" "late")]) = .ok r ∧
      r.items = completedItems [ThreadEvent.itemCompleted "item.completed"
          (.agentMessage "m1" "agent_message" "early")] ++
        completedItems [ThreadEvent.itemCompleted "item.completed"
          (.agentMessage "m2" "agent_message" "late")] ∧
      r.usage = some ((usageUpdates [ThreadEvent.itemCompleted "item.completed"
          (.agentMessage "m2" "agent_message" "late")]).getLast?.getD ⟨10, 2, 3⟩) :=
  C6_turn_completed_does_not_terminate _ _ "turn.completed" ⟨10, 2, 3⟩
    (by decide) (by decide)


/-- C5: a decoded object whose `type` is missing, not a string, or not
one of the eight event (resp. item) discriminants is a hard decode
failure — no default variant is produced. -/
theorem C5_unrecognized_discriminant_is_fatal :
    (∀ d : List (String × Json),
      (∀ t : String, dictGet d "type" = some (.str t) → t ∉ eventTypeStrings) →
      isErr (parse_thread_event (.obj d)) = true) ∧
    (∀ d : List (String × Json),
      (∀ t : String, dictGet d "type" = some (.str t) → t ∉ itemTypeStrings) →
      isErr (parse_thread_item (.obj d)) = true) := by
  constructor
  · intro d h
    cases het : dictGet d "type" with
    | none => simp [parse_thread_event, het, isErr]
    | some v =>
      cases v with
      | str t =>
        have hni := h t het
        simp only [eventTypeStrings, List.mem_cons, List.not_mem_nil, or_false,
          not_or] at hni
        obtain ⟨n1, n2, n3, n4, n5, n6, n7, n8⟩ := hni
        simp [parse_thread_event, het, isErr, n1, n2, n3, n4, n5, n6, n7, n8]
      | null => simp [parse_thread_event, het, isErr]
      | bool b => simp [parse_thread_event, het, isErr]
      | num n => simp [parse_thread_event, het, isErr]
      | arr xs => simp [parse_thread_event, het, isErr]
      | obj fs => simp [parse_thread_event, het, isErr]
  · intro d h
    cases het : dictGet d "type" with
    | none => simp [parse_thread_item, het, isErr]
    | some v =>
      cases v with
      | str t =>
        have hni := h t het
        simp only [itemTypeStrings, List.mem_cons, List.not_mem_nil, or_false,
          not_or] at hni
        obtain ⟨n1, n2, n3, n4, n5, n6, n7, n8⟩ := hni
        simp [parse_thread_item, het, isErr, n1, n2, n3, n4, n5, n6, n7, n8]
      | null => simp [parse_thread_item, het, isErr]
      | bool b => simp [parse_thread_item, het, isErr]
      | num n => simp [parse_thread_item, het, isErr]
      | arr xs => simp [parse_thread_item, het, isErr]
      | obj fs => simp [parse_thread_item, het, isErr]

theorem C5_witness :
    isErr (parse_thread_event (.obj [("type", Json.str "zzz")])) = true ∧
    isErr (parse_thread_item (.obj [("type", Json.str "zzz")])) = true :=
  ⟨C5_unrecognized_discriminant_is_fatal.1 [("type", Json.str "zzz")]
      (by intro t ht; simp [dictGet] at ht; subst ht; decide),
   C5_unrecognized_discriminant_is_fatal.2 [("type", Json.str "zzz")]
      (by intro t ht; simp [dictGet] at ht; subst ht; decide)⟩

/-- C9 (counterexample): an item payload lacking `id` is NOT a decode
failure — `str(data.get("id", ""))` substitutes the empty string. -/
theorem C9_counterexample :
    parse_thread_item (.obj [("type", Json.str "agent_message")]) =
      .ok (.agentMessage "" "agent_message" "") := rfl

/-- C9 (amended): an item payload needs only its `type` discriminant; for
each of the eight variants, a payload lacking `id` decodes successfully
with `id = ""`. -/
theorem C9_missing_id_defaults_to_empty_string :
    parse_thread_item (.obj [("type", Json.str "agent_message")]) =
      .ok (.agentMessage "" "agent_message" "") ∧
    parse_thread_item (.obj [("type", Json.str "reasoning")]) =
      .ok (.reasoning "" "reasoning" "") ∧
    parse_thread_item (.obj [("type", Json.str "command_execution")]) =
      .ok (.commandExecution "" "command_execution" "" "" "" .null) ∧
    parse_thread_item (.obj [("type", Json.str "file_change")]) =
      .ok (.fileChange "" "file_change" [] "") ∧
    parse_thread_item (.obj [("type", Json.str "mcp_tool_call")]) =
      .ok (.mcpToolCall "" "mcp_tool_call" "" "" .null "" none none) ∧
    parse_thread_item (.obj [("type", Json.str "web_search")]) =
      .ok (.webSearch "" "web_search" "") ∧
    parse_thread_item (.obj [("type", Json.str "todo_list")]) =
      .ok (.todoList "" "todo_list" []) ∧
    parse_thread_item (.obj [("type", Json.str "error")]) =
      .ok (.errorItem "" "error" "") :=
  ⟨rfl, rfl, rfl, rfl, rfl, rfl, rfl, rfl⟩

/-- C10: decoding is strict only about structural sub-objects —
`thread.started` without `thread_id` and the three item events without
`item` raise KeyError — and otherwise total with defaults: `error` /
`turn.failed` without a message yield message `""`, `turn.completed`
without usage yields `Usage(0,0,0)`, absent item string fields yield
`""`. -/
theorem C10_strict_structure_defaulted_fields :
    parse_thread_event (.obj [("type", Json.str "thread.started")]) =
      .error (.key_error "thread_id") ∧
    parse_thread_event (.obj [("type", Json.str "item.started")]) =
      .error (.key_error "item") ∧
    parse_thread_event (.obj [("type", Json.str "item.updated")]) =
      .error (.key_error "item") ∧
    parse_thread_event (.obj [("type", Json.str "item.completed")]) =
      .error (.key_error "item") ∧
    parse_thread_event (.obj [("type", Json.str "turn.started")]) =
      .ok (.turnStarted "turn.started") ∧
    parse_thread_event (.obj [("type", Json.str "turn.completed")]) =
      .ok (.turnCompleted "turn.completed" ⟨0, 0, 0⟩) ∧
    parse_thread_event (.obj [("type", Json.str "turn.failed")]) =
      .ok (.turnFailed "turn.failed" ⟨""⟩) ∧
    parse_thread_event (.obj [("type", Json.str "error")]) =
      .ok (.errorEvent "error" "") ∧
    parse_thread_event (.obj [("type", Json.str "thread.started"),
        ("thread_id", Json.str "t1")]) =
      .ok (.threadStarted "thread.started" "t1") ∧
    parse_thread_event (.obj [("type", Json.str "item.completed"),
        ("item", Json.obj [("type", Json.str "agent_message")])]) =
      .ok (.itemCompleted "item.completed" (.agentMessage "" "agent_message" "")) :=
  ⟨rfl, rfl, rfl, rfl, rfl, rfl, rfl, rfl, rfl, rfl⟩

theorem runPipelineAux_never_nonzero_exit
    (p : ProcResult) (alive dies : Bool) (hrc : p.returncode ≠ 0) :
    ∀ (ls : List String) (i : Nat) (st : RunState),
    (∀ l ∈ ls, ∃ ev, parse_thread_event_line l = .ok ev ∧
      isFailureEvent ev = false) →
    runPipelineAux p .never alive dies i ls st =
      (.error (.processFailure (processFailureMessage p)), []) := by
  intro ls
  induction ls with
  | nil =>
    intro i st _
    simp [runPipelineAux, cancelActive, hrc]
  | cons l rest ih =>
    intro i st h
    obtain ⟨ev, hev, hnf⟩ := h l (List.mem_cons_self l rest)
    simp only [runPipelineAux, cancelActive, Bool.false_eq_true, if_false,
      hev, stepEvent_snd, hnf]
    exact ih (i + 1) _ fun x hx => h x (List.mem_cons_of_mem l hx)

/-- C7: when the subprocess exits with a non-zero status and every
output line decodes to a non-failure event (so no `turn.failed` / `error`
was observed and the stream is drained to its natural end), the run
raises the RuntimeError from `CodexExec.run`, whose message contains
both the exit code and the captured stderr text. -/
theorem C7_nonzero_exit_raises_with_code_and_stderr
    (p : ProcResult) (alive dies : Bool) (hrc : p.returncode ≠ 0)
    (hlines : ∀ l ∈ p.lines, ∃ ev, parse_thread_event_line l = .ok ev ∧
      isFailureEvent ev = false) :
    (runPipeline .never p alive dies).result =
      .error (.processFailure (processFailureMessage p)) ∧
    strContains (processFailureMessage p) (toString p.returncode) ∧
    strContains (processFailureMessage p) p.stderr := by
  refine ⟨?_, ?_, ?_⟩
  · unfold runPipeline
    simp only [cancelActive, Bool.false_eq_true, if_false]
    rw [runPipelineAux_never_nonzero_exit p alive dies hrc p.lines 0 initState hlines]
  · refine ⟨"Codex Exec exited with code ".data, (": " ++ p.stderr).data, ?_⟩
    simp [processFailureMessage, String.data_append]
  · refine ⟨("Codex Exec exited with code " ++ toString p.returncode ++ ": ").data,
      [], ?_⟩
    simp [processFailureMessage, String.data_append]

theorem C7_witness :
    (runPipeline .never ⟨[], 1, "boom"⟩ false false).result =
      .error (.processFailure (processFailureMessage ⟨[], 1, "boom"⟩)) ∧
    strContains (processFailureMessage ⟨[], 1, "boom"⟩) (toString (1 : Int)) ∧
    strContains (processFailureMessage ⟨[], 1, "boom"⟩) "boom" :=
  C7_nonzero_exit_raises_with_code_and_stderr ⟨[], 1, "boom"⟩ false false
    (by decide) (by intro l hl; exact absurd hl (List.not_mem_nil l))

/-- C8: a cancellation signal set before any output is read (either
before the process is spawned, or after spawning but before the first
read) makes the run raise `CancelledError` — a constructor distinct from
the `ThreadRunError` used for turn failures — return no `TurnResult`,
and, whenever a process was spawned and is still alive, send it a
termination signal (first `terminate`, then `kill` if the grace period
elapses). -/
theorem C8_cancellation_before_output
    (cancel : CancelTime) (p : ProcResult) (alive dies : Bool)
    (h : cancel = .beforeStart ∨ cancel = .beforeFirstEvent) :
    (runPipeline cancel p alive dies).result = .error .cancelled ∧
    (∀ r : TurnResult, (runPipeline cancel p alive dies).result ≠ .ok r) ∧
    (∀ m : String, (RunError.cancelled ≠ RunError.threadRun m)) ∧
    ((runPipeline cancel p alive dies).spawned = true → alive = true →
      ProcAction.terminate ∈ (runPipeline cancel p alive dies).actions) := by
  rcases h with rfl | rfl
  · have hr : runPipeline .beforeStart p alive dies =
        ⟨.error .cancelled, false, []⟩ := by
      unfold runPipeline
      simp [cancelActive]
    rw [hr]
    refine ⟨rfl, ?_, ?_, ?_⟩
    · intro r hr2
      exact Except.noConfusion hr2
    · intro m hm
      exact RunError.noConfusion hm
    · intro hsp
      exact absurd hsp (by simp)
  · have hr : runPipeline .beforeFirstEvent p alive dies =
        ⟨.error .cancelled, true, terminate_process alive dies⟩ := by
      unfold runPipeline
      simp [cancelActive]
    rw [hr]
    refine ⟨rfl, ?_, ?_, ?_⟩
    · intro r hr2
      exact Except.noConfusion hr2
    · intro m hm
      exact RunError.noConfusion hm
    · intro _ halive
      subst halive
      cases dies <;> simp [terminate_process]

theorem C8_witness :
    (runPipeline .beforeFirstEvent ⟨["line"], 0, ""⟩ true true).result =
      .error .cancelled ∧
    (∀ r : TurnResult,
      (runPipeline .beforeFirstEvent ⟨["line"], 0, ""⟩ true true).result ≠ .ok r) ∧
    (∀ m : String, (RunError.cancelled ≠ RunError.threadRun m)) ∧
    ((runPipeline .beforeFirstEvent ⟨["line"], 0, ""⟩ true true).spawned = true →
      true = true →
      ProcAction.terminate ∈
        (runPipeline .beforeFirstEvent ⟨["line"], 0, ""⟩ true true).actions) :=
  C8_cancellation_before_output .beforeFirstEvent ⟨["line"], 0, ""⟩ true true
    (Or.inr rfl)
